import Mathlib

/-!
# Ingestion gateway (`gateway/main.go`)

A shallow embedding of the gateway process: the `IngestRequest` data contract, the
`POST /ingest` handler, the resolution of `REDIS_ADDR`, and the start-up sequence of `main`.

The two libraries the program calls are outside the repository and are modelled by what the
program observes of them:

* the queue store client (`rdb.LPush`, `rdb.Ping`): the lists held by the store, the calls
  made through the client, and, for every call, the error the client returns (`none` is
  Go's `nil`). What the client does inside one call is not modelled;
* the web framework (`c.BodyParser`, `c.Body`, `c.Status(..).JSON(..)`): a request context
  carries its body bytes and the outcome of `c.BodyParser`; for a request with a JSON content
  type that outcome is `json.Unmarshal` of the body, modelled in `Json` below. A response is
  its status code and the `fiber.Map` handed to `JSON`; the bytes the encoder writes for the
  map are not modelled.

Requests are served one at a time: the handler touches the shared store in a single call, so
requests handled side by side are the sequence of these calls.
-/

namespace Gateway

/-- Go's `[]byte`. -/
abbrev Bytes := List UInt8

/-- The data contract expected from the user (`type IngestRequest struct`). -/
structure IngestRequest where
  UserID : String
  DocumentID : String
  Content : String
deriving DecidableEq, Repr

/-- The value of `new(IngestRequest)`: every field is the empty string. -/
def IngestRequest.new : IngestRequest := ⟨"", "", ""⟩

/-! ## The JSON decoder behind `c.BodyParser`

For a request with a JSON content type fiber's `BodyParser` is `json.Unmarshal(c.Body(), out)`
of Go's `encoding/json`. `Unmarshal` first checks that the whole input is one well-formed JSON
value (`checkValid`, a byte-driven scanner), then stores the value in the struct. -/

namespace Json

/-- The byte of an ASCII character. -/
def b (c : Char) : UInt8 := c.toNat.toUInt8

/-- The scanner's `parseState` entries: what is being parsed at one level of nesting. -/
inductive ParseState
  | objectKey
  | objectValue
  | arrayValue
deriving DecidableEq, Repr

/-- The scanner's step functions (`stateBeginValue`, `stateInString`, ...), by name. -/
inductive Step
  | beginValueOrEmpty | beginValue | beginStringOrEmpty | beginString
  | endValue | endTop
  | inString | inStringEsc | inStringEscU | inStringEscU1 | inStringEscU12 | inStringEscU123
  | neg | one | zero | dot | dot0 | e | eSign | e0
  | t | tr | tru | f | fa | fal | fals | n | nu | nul
  | error
deriving DecidableEq, Repr

/-- The scanner: the next step function, the stack of parse states (innermost first) and
whether the top-level value has ended. Its `err` is set exactly when `step` is `error`. -/
structure Scanner where
  step : Step
  parseState : List ParseState
  endTop : Bool
deriving DecidableEq, Repr

/-- The limit on the nesting of arrays and objects. -/
def maxNestingDepth : Nat := 10000

/-- The scanner after `s.reset()`. -/
def Scanner.reset : Scanner := ⟨.beginValue, [], false⟩

/-- The scanner after `s.error(c, context)`. -/
def Scanner.error (s : Scanner) : Scanner := { s with step := .error }

/-- The scanner moved to another step function. -/
def Scanner.goto (s : Scanner) (st : Step) : Scanner := { s with step := st }

/-- The function `isSpace`. -/
def isSpace (c : UInt8) : Bool := c = b ' ' || c = b '\t' || c = b '\r' || c = b '\n'

/-- Decimal digits `'0'..'9'`. -/
def isDigit (c : UInt8) : Bool := b '0' ≤ c && c ≤ b '9'

/-- Hexadecimal digits. -/
def isHex (c : UInt8) : Bool :=
  isDigit c || (b 'a' ≤ c && c ≤ b 'f') || (b 'A' ≤ c && c ≤ b 'F')

/-- The method `pushParseState`: a new level of nesting, refused beyond the limit. -/
def Scanner.pushParseState (s : Scanner) (ps : ParseState) (next : Step) : Scanner :=
  if s.parseState.length + 1 ≤ maxNestingDepth then
    { s with parseState := ps :: s.parseState, step := next }
  else
    { s with parseState := ps :: s.parseState, step := .error }

/-- The method `popParseState`. -/
def Scanner.popParseState (s : Scanner) : Scanner :=
  match s.parseState.drop 1 with
  | [] => { s with parseState := [], step := .endTop, endTop := true }
  | rest => { s with parseState := rest, step := .endValue }

/-- The step `stateEndTop`: only space may follow the top-level value. -/
def stateEndTop (s : Scanner) (c : UInt8) : Scanner :=
  if !isSpace c then s.error else s

/-- The step `stateEndValue`: after a value, such as after a quote or a closing bracket. -/
def stateEndValue (s : Scanner) (c : UInt8) : Scanner :=
  match s.parseState with
  | [] => stateEndTop { s with step := .endTop, endTop := true } c
  | ps :: rest =>
    if isSpace c then s.goto .endValue
    else match ps with
      | .objectKey =>
        if c = b ':' then { s with parseState := .objectValue :: rest, step := .beginValue }
        else s.error
      | .objectValue =>
        if c = b ',' then { s with parseState := .objectKey :: rest, step := .beginString }
        else if c = b '}' then s.popParseState
        else s.error
      | .arrayValue =>
        if c = b ',' then s.goto .beginValue
        else if c = b ']' then s.popParseState
        else s.error

/-- The step `stateBeginValue`: the start of a value. -/
def stateBeginValue (s : Scanner) (c : UInt8) : Scanner :=
  if isSpace c then s
  else if c = b '{' then s.pushParseState .objectKey .beginStringOrEmpty
  else if c = b '[' then s.pushParseState .arrayValue .beginValueOrEmpty
  else if c = b '"' then s.goto .inString
  else if c = b '-' then s.goto .neg
  else if c = b '0' then s.goto .zero
  else if c = b 't' then s.goto .t
  else if c = b 'f' then s.goto .f
  else if c = b 'n' then s.goto .n
  else if b '1' ≤ c && c ≤ b '9' then s.goto .one
  else s.error

/-- The step `stateBeginValueOrEmpty`: after `[`. -/
def stateBeginValueOrEmpty (s : Scanner) (c : UInt8) : Scanner :=
  if isSpace c then s
  else if c = b ']' then stateEndValue s c
  else stateBeginValue s c

/-- The step `stateBeginString`: after `,` in an object, where a key must start. -/
def stateBeginString (s : Scanner) (c : UInt8) : Scanner :=
  if isSpace c then s
  else if c = b '"' then s.goto .inString
  else s.error

/-- The step `stateBeginStringOrEmpty`: after `{`. -/
def stateBeginStringOrEmpty (s : Scanner) (c : UInt8) : Scanner :=
  if isSpace c then s
  else if c = b '}' then
    stateEndValue { s with parseState := .objectValue :: s.parseState.drop 1 } c
  else stateBeginString s c

/-- The step `state0`: after a leading `0`, and the tail of `state1`. -/
def state0 (s : Scanner) (c : UInt8) : Scanner :=
  if c = b '.' then s.goto .dot
  else if c = b 'e' || c = b 'E' then s.goto .e
  else stateEndValue s c

/-- The step `stateESign`: after the sign of an exponent. -/
def stateESign (s : Scanner) (c : UInt8) : Scanner :=
  if isDigit c then s.goto .e0 else s.error

/-- A step that accepts exactly the byte `want` and moves to `next`, as the steps of the
literals `true`, `false` and `null` do. -/
def expect (s : Scanner) (c : UInt8) (want : Char) (next : Step) : Scanner :=
  if c = b want then s.goto next else s.error

/-- One call `s.step(s, c)`: the step function in `s.step` applied to the byte `c`. -/
def Scanner.next (s : Scanner) (c : UInt8) : Scanner :=
  match s.step with
  | .beginValueOrEmpty => stateBeginValueOrEmpty s c
  | .beginValue => stateBeginValue s c
  | .beginStringOrEmpty => stateBeginStringOrEmpty s c
  | .beginString => stateBeginString s c
  | .endValue => stateEndValue s c
  | .endTop => stateEndTop s c
  | .inString =>
    if c = b '"' then s.goto .endValue
    else if c = b '\\' then s.goto .inStringEsc
    else if c < 0x20 then s.error
    else s
  | .inStringEsc =>
    if c = b 'b' || c = b 'f' || c = b 'n' || c = b 'r' || c = b 't' || c = b '\\'
        || c = b '/' || c = b '"' then s.goto .inString
    else if c = b 'u' then s.goto .inStringEscU
    else s.error
  | .inStringEscU => if isHex c then s.goto .inStringEscU1 else s.error
  | .inStringEscU1 => if isHex c then s.goto .inStringEscU12 else s.error
  | .inStringEscU12 => if isHex c then s.goto .inStringEscU123 else s.error
  | .inStringEscU123 => if isHex c then s.goto .inString else s.error
  | .neg =>
    if c = b '0' then s.goto .zero
    else if b '1' ≤ c && c ≤ b '9' then s.goto .one
    else s.error
  | .one => if isDigit c then s.goto .one else state0 s c
  | .zero => state0 s c
  | .dot => if isDigit c then s.goto .dot0 else s.error
  | .dot0 =>
    if isDigit c then s
    else if c = b 'e' || c = b 'E' then s.goto .e
    else stateEndValue s c
  | .e => if c = b '+' || c = b '-' then s.goto .eSign else stateESign s c
  | .eSign => stateESign s c
  | .e0 => if isDigit c then s else stateEndValue s c
  | .t => expect s c 'r' .tr
  | .tr => expect s c 'u' .tru
  | .tru => expect s c 'e' .endValue
  | .f => expect s c 'a' .fa
  | .fa => expect s c 'l' .fal
  | .fal => expect s c 's' .fals
  | .fals => expect s c 'e' .endValue
  | .n => expect s c 'u' .nu
  | .nu => expect s c 'l' .nul
  | .nul => expect s c 'l' .endValue
  | .error => s

/-- The method `eof`: whether the input may end here. -/
def Scanner.eof (s : Scanner) : Bool :=
  if s.step = .error then false
  else if s.endTop then true
  else (s.next (b ' ')).endTop

/-- The function `checkValid`: the scanner stepped through every byte, then asked for the
end of input. -/
def checkValid (data : Bytes) : Bool := (data.foldl Scanner.next Scanner.reset).eof


/-! ### String literals (`unquoteBytes`) -/

/-- The replacement rune `U+FFFD`, which stands for what is not valid Unicode. -/
def replacementChar : Char := Char.ofNat 0xFFFD

/-- A continuation byte of UTF-8, `0x80..0xBF`. -/
def isCont (c : UInt8) : Bool := 0x80 ≤ c && c ≤ 0xBF

/-- The value of a hexadecimal digit. -/
def hexVal (c : UInt8) : Option Nat :=
  if isDigit c then some (c.toNat - 48)
  else if b 'a' ≤ c && c ≤ b 'f' then some (c.toNat - 87)
  else if b 'A' ≤ c && c ≤ b 'F' then some (c.toNat - 55)
  else none

/-- The function `getu4` on the four digits after `\u`. -/
def getu4 (h1 h2 h3 h4 : UInt8) : Option Nat := do
  let a ← hexVal h1
  let b ← hexVal h2
  let c ← hexVal h3
  let d ← hexVal h4
  pure (((a * 16 + b) * 16 + c) * 16 + d)

/-- Whether the first two bytes start a well-formed UTF-8 sequence of the length the first
byte announces (the accept ranges of `utf8.DecodeRune`). -/
def goodStart (c0 c1 : UInt8) : Bool :=
  if c0 = 0xE0 then 0xA0 ≤ c1 && c1 ≤ 0xBF
  else if c0 = 0xED then 0x80 ≤ c1 && c1 ≤ 0x9F
  else if c0 = 0xF0 then 0x90 ≤ c1 && c1 ≤ 0xBF
  else if c0 = 0xF4 then 0x80 ≤ c1 && c1 ≤ 0x8F
  else isCont c1

/-- The runes of the inside of a string literal: escapes are replaced, well-formed UTF-8 is
decoded, and every byte that is not part of well-formed UTF-8 becomes `U+FFFD`. `none` when
the bytes are not the inside of a string literal. -/
def unquoteRunes : Bytes → Option (List Char)
  | [] => some []
  | c0 :: rest =>
    if c0 = b '\\' then
      match rest with
      | [] => none
      | c1 :: rest1 =>
        if c1 = b '"' || c1 = b '\\' || c1 = b '/' || c1 = b '\'' then
          (unquoteRunes rest1).map (Char.ofNat c1.toNat :: ·)
        else if c1 = b 'b' then (unquoteRunes rest1).map (Char.ofNat 8 :: ·)
        else if c1 = b 'f' then (unquoteRunes rest1).map (Char.ofNat 12 :: ·)
        else if c1 = b 'n' then (unquoteRunes rest1).map ('\n' :: ·)
        else if c1 = b 'r' then (unquoteRunes rest1).map ('\r' :: ·)
        else if c1 = b 't' then (unquoteRunes rest1).map ('\t' :: ·)
        else if c1 = b 'u' then
          match rest1 with
          | h1 :: h2 :: h3 :: h4 :: rest2 =>
            match getu4 h1 h2 h3 h4 with
            | none => none
            | some rr =>
              if 0xD800 ≤ rr && rr < 0xE000 then
                -- a surrogate: a valid pair with the next escape, or the replacement rune
                let alone := (unquoteRunes rest2).map (replacementChar :: ·)
                match rest2 with
                | e0 :: e1 :: g1 :: g2 :: g3 :: g4 :: rest3 =>
                  match getu4 g1 g2 g3 g4 with
                  | some rr1 =>
                    if e0 = b '\\' && e1 = b 'u' && rr < 0xDC00 && 0xDC00 ≤ rr1
                        && rr1 < 0xE000 then
                      (unquoteRunes rest3).map
                        (Char.ofNat ((rr - 0xD800) * 1024 + (rr1 - 0xDC00) + 0x10000) :: ·)
                    else alone
                  | none => alone
                | _ => alone
              else (unquoteRunes rest2).map (Char.ofNat rr :: ·)
          | _ => none
        else none
    else if c0 = b '"' || c0 < 0x20 then none
    else if c0 < 0x80 then (unquoteRunes rest).map (Char.ofNat c0.toNat :: ·)
    else
      -- not ASCII: a well-formed UTF-8 sequence, or one byte replaced by `U+FFFD`
      let bad := (unquoteRunes rest).map (replacementChar :: ·)
      match rest with
      | [] => bad
      | c1 :: rest1 =>
        if 0xC2 ≤ c0 && c0 ≤ 0xDF && isCont c1 then
          (unquoteRunes rest1).map
            (Char.ofNat ((c0.toNat - 0xC0) * 64 + (c1.toNat - 0x80)) :: ·)
        else
          match rest1 with
          | [] => bad
          | c2 :: rest2 =>
            if 0xE0 ≤ c0 && c0 ≤ 0xEF && goodStart c0 c1 && isCont c2 then
              (unquoteRunes rest2).map
                (Char.ofNat (((c0.toNat - 0xE0) * 64 + (c1.toNat - 0x80)) * 64
                  + (c2.toNat - 0x80)) :: ·)
            else
              match rest2 with
              | [] => bad
              | c3 :: rest3 =>
                if 0xF0 ≤ c0 && c0 ≤ 0xF4 && goodStart c0 c1 && isCont c2 && isCont c3 then
                  (unquoteRunes rest3).map
                    (Char.ofNat ((((c0.toNat - 0xF0) * 64 + (c1.toNat - 0x80)) * 64
                      + (c2.toNat - 0x80)) * 64 + (c3.toNat - 0x80)) :: ·)
                else bad

/-- The function `unquoteBytes` followed by the conversion to `string`: the text of a quoted
string literal. `none` when the bytes are not a string literal. -/
def unquote (lit : Bytes) : Option String :=
  match lit with
  | q :: rest =>
    if q = b '"' && 1 ≤ rest.length && rest.getLast? = some (b '"') then
      (unquoteRunes rest.dropLast).map String.mk
    else none
  | [] => none

/-! ### The top-level value -/

/-- A JSON value as far as storing it in a string field looks: its kind, and for a string
its text. -/
inductive Value
  | null
  | bool
  | number
  | string (s : String)
  | array
  | object
deriving DecidableEq, Repr

/-- The word `UnmarshalTypeError` has for the kind of a value. -/
def Value.kind : Value → String
  | .null => "null"
  | .bool => "bool"
  | .number => "number"
  | .string _ => "string"
  | .array => "array"
  | .object => "object"

/-- The top-level value of a document as far as storing it in the struct looks: for an
object, its members in the order written, keys unquoted. -/
inductive Document
  | object (members : List (String × Value))
  | other (v : Value)
deriving DecidableEq, Repr

/-- The value that a member's bytes spell: the first byte tells the kind. -/
def valueOf (raw : Bytes) : Option Value :=
  match raw with
  | [] => none
  | c :: _ =>
    if c = b '"' then (unquote raw).map Value.string
    else if c = b '{' then some .object
    else if c = b '[' then some .array
    else if c = b 't' || c = b 'f' then some .bool
    else if c = b 'n' then some .null
    else some .number

/-- The reading position inside the top-level object: the nesting depth, whether a string
literal is open and whether its last byte was an unpaired backslash, the bytes of the key or
value being read (latest first), the key of the member being read once its `:` is passed, and
the members read so far (latest first). -/
structure Cursor where
  depth : Nat
  inString : Bool
  escaped : Bool
  item : Bytes
  key : Option Bytes
  members : List (Bytes × Bytes)
deriving DecidableEq, Repr

/-- The member being read is complete: it joins the members read. -/
def Cursor.flush (k : Cursor) : Cursor :=
  match k.key with
  | some key => { k with item := [], key := none, members := (key, k.item.reverse) :: k.members }
  | none => { k with item := [] }

/-- One byte of a well-formed document read: at depth 1 the bytes between the separators
`:`, `,` and the closing brace are the keys and the values, nested values included whole. -/
def Cursor.next (k : Cursor) (c : UInt8) : Cursor :=
  if k.inString then
    let k := { k with item := c :: k.item }
    if k.escaped then { k with escaped := false }
    else if c = b '\\' then { k with escaped := true }
    else if c = b '"' then { k with inString := false }
    else k
  else if c = b '"' then { k with inString := true, item := c :: k.item }
  else if c = b '{' || c = b '[' then
    if k.depth = 0 then { k with depth := 1 }
    else { k with depth := k.depth + 1, item := c :: k.item }
  else if c = b '}' || c = b ']' then
    if k.depth ≤ 1 then { k.flush with depth := 0 }
    else { k with depth := k.depth - 1, item := c :: k.item }
  else if k.depth = 1 && c = b ':' then { k with item := [], key := some k.item.reverse }
  else if k.depth = 1 && c = b ',' then k.flush
  else if isSpace c then k
  else { k with item := c :: k.item }

/-- The raw members of a well-formed document whose top-level value is an object: the bytes
of every key and value, in the order written. -/
def rawMembers (data : Bytes) : List (Bytes × Bytes) :=
  (data.foldl Cursor.next ⟨0, false, false, [], none, []⟩).members.reverse

/-- The members with the keys unquoted and the values read. -/
def readMembers : List (Bytes × Bytes) → Option (List (String × Value))
  | [] => some []
  | (key, raw) :: rest => do
    let k ← unquote key
    let v ← valueOf raw
    let ms ← readMembers rest
    pure ((k, v) :: ms)

/-- The input without the space around its value. -/
def trim (data : Bytes) : Bytes :=
  ((data.dropWhile isSpace).reverse.dropWhile isSpace).reverse

/-- The document that well-formed input spells; `none` when the input is not well-formed
JSON (`checkValid` fails). -/
def parse (data : Bytes) : Option Document :=
  if checkValid data then
    match trim data with
    | [] => none
    | c :: rest =>
      if c = b '{' then (readMembers (rawMembers (c :: rest))).map Document.object
      else (valueOf (c :: rest)).map Document.other
  else none

/-! ### Storing an object in the struct -/

/-- The fields of `IngestRequest`. -/
inductive Field
  | UserID
  | DocumentID
  | Content
deriving DecidableEq, Repr, Fintype

/-- The JSON name of a field, from its `json:"..."` tag. -/
def Field.name : Field → String
  | .UserID => "user_id"
  | .DocumentID => "document_id"
  | .Content => "content"

/-- The function `foldRune` as far as it can matter for names written in ASCII: a letter
`a..z` folds to its capital, and so do the two runes outside ASCII that fold to a letter,
`U+017F` to `S` and `U+212A` to `K`; no other rune folds to an ASCII character. -/
def foldRune (c : Char) : Char :=
  if 'a' ≤ c ∧ c ≤ 'z' then Char.ofNat (c.toNat - 32)
  else if c = Char.ofNat 0x17F then 'S'
  else if c = Char.ofNat 0x212A then 'K'
  else c

/-- The function `foldName`: the name with every rune folded. -/
def foldName (name : String) : String := String.mk (name.toList.map foldRune)

/-- The field an object key addresses: the field of that exact name, otherwise the field
whose name is the same up to case folding; `none` for an unknown key, which is skipped. -/
def field? (key : String) : Option Field :=
  match [Field.UserID, .DocumentID, .Content].find? (fun f => f.name = key) with
  | some f => some f
  | none => [Field.UserID, .DocumentID, .Content].find? (fun f => foldName f.name = foldName key)

/-- The state of the decoder while it stores an object: the struct being filled, and the
first type error met (`d.savedError`). -/
structure DecodeState where
  payload : IngestRequest
  savedError : Option String
deriving DecidableEq, Repr

/-- The struct with a string stored in one field. -/
def setField (p : IngestRequest) (f : Field) (s : String) : IngestRequest :=
  match f with
  | .UserID => { p with UserID := s }
  | .DocumentID => { p with DocumentID := s }
  | .Content => { p with Content := s }

/-- The text of an `UnmarshalTypeError` for a value stored in a field of type `string`. -/
def typeError (v : Value) (f : Field) : String :=
  "json: cannot unmarshal " ++ v.kind ++ " into Go struct field IngestRequest." ++ f.name
    ++ " of type string"

/-- One member of the object stored: a string is stored in the field its key addresses, a
`null` and an unknown key change nothing, any other value for a known field is a type error,
which is saved if it is the first, and the decoder goes on. -/
def storeMember (d : DecodeState) (m : String × Value) : DecodeState :=
  match field? m.1 with
  | none => d
  | some f =>
    match m.2 with
    | .string s => { d with payload := setField d.payload f s }
    | .null => d
    | v => { d with savedError := d.savedError.orElse (fun _ => some (typeError v f)) }

/-- The function `json.Unmarshal(data, payload)` for `payload = new(IngestRequest)`: the
struct decoded, or the error returned. A syntax error is returned without its position and
the byte it names. -/
def Unmarshal (data : Bytes) : Except String IngestRequest :=
  match parse data with
  | none => .error "json: syntax error"
  | some (.other .null) => .ok IngestRequest.new
  | some (.other v) =>
    .error ("json: cannot unmarshal " ++ v.kind ++ " into Go value of type main.IngestRequest")
  | some (.object members) =>
    let d := members.foldl storeMember ⟨IngestRequest.new, none⟩
    match d.savedError with
    | some e => .error e
    | none => .ok d.payload

/-! ### What an object submits for a field -/

/-- The values an object submits for a field: those of the members whose key addresses the
field, in the order written. -/
def submitted (members : List (String × Value)) (f : Field) : List Value :=
  (members.filter (fun m => field? m.1 = some f)).map (fun m => m.2)

/-- A value that a field of type `string` accepts without a type error: a string or `null`. -/
def Value.storable : Value → Bool
  | .string _ => true
  | .null => true
  | _ => false

/-- The text stored last by a list of storable values, if any stores one. -/
def lastString : List Value → Option String
  | [] => none
  | v :: rest =>
    match lastString rest with
    | some s => some s
    | none =>
      match v with
      | .string s => some s
      | _ => none

/-- The field of a struct. -/
def getField (p : IngestRequest) : Field → String
  | .UserID => p.UserID
  | .DocumentID => p.DocumentID
  | .Content => p.Content

/-! ### Go strings as bytes -/

/-- The function `utf8.AppendRune` for one rune of a string. -/
def encodeRune (c : Char) : Bytes :=
  let n := c.toNat
  if n < 0x80 then [n.toUInt8]
  else if n < 0x800 then [(0xC0 + n / 64).toUInt8, (0x80 + n % 64).toUInt8]
  else if n < 0x10000 then
    [(0xE0 + n / 4096).toUInt8, (0x80 + n / 64 % 64).toUInt8, (0x80 + n % 64).toUInt8]
  else
    [(0xF0 + n / 262144).toUInt8, (0x80 + n / 4096 % 64).toUInt8,
      (0x80 + n / 64 % 64).toUInt8, (0x80 + n % 64).toUInt8]

/-- The bytes of a string, `[]byte(s)`. -/
def bytes (s : String) : Bytes := s.toList.flatMap encodeRune

end Json

/-! ## The queue store client -/

/-- Go's `error` as returned by a library call: `none` is `nil`. -/
abbrev GoError := Option String

/-- One call `rdb.LPush(ctx, key, value)`, the command `LPUSH key value`. -/
structure LPushCmd where
  key : String
  value : Bytes
deriving DecidableEq, Repr

/-- The queue store behind the client `rdb`: the list held under every key (head first), and
the `LPush` calls the process has made so far (latest first). -/
structure Redis where
  lists : String → List Bytes
  issued : List LPushCmd

/-- A store with no list and no command issued. -/
def Redis.empty : Redis := ⟨fun _ => [], []⟩

/-- The call `rdb.LPush(ctx, key, value).Err()`. The call is recorded; `fault` is the error
the client returns for it. When there is none the value is pushed to the head of the list
under `key`; when there is one the lists are left as they were. -/
def Redis.LPush (rdb : Redis) (key : String) (value : Bytes) (fault : GoError) :
    GoError × Redis :=
  match fault with
  | none =>
    (none, ⟨fun k => if k = key then value :: rdb.lists k else rdb.lists k,
            ⟨key, value⟩ :: rdb.issued⟩)
  | some e => (some e, ⟨rdb.lists, ⟨key, value⟩ :: rdb.issued⟩)

/-! ## The request context and the response -/

/-- What the handler reads of `*fiber.Ctx`: the request body (`c.Body()`) and the outcome of
`c.BodyParser(payload)` on the fresh `payload`, which fiber computes from the request. -/
structure Ctx where
  Body : Bytes
  BodyParser : Except String IngestRequest

/-- The `fiber.Map` literals of the handler: keys and string values, in the order written. -/
abbrev Map := List (String × String)

/-- The value a `fiber.Map` holds under a key. -/
def Map.get (m : Map) (k : String) : Option String := m.lookup k

/-- The response `c.Status(code).JSON(body)`. -/
structure Response where
  status : Nat
  body : Map
deriving DecidableEq, Repr

/-- A request with a JSON content type and the given body, sent without content encoding:
`c.Body()` is the body and `c.BodyParser` is `json.Unmarshal` of it. -/
def Ctx.json (body : Bytes) : Ctx := ⟨body, Json.Unmarshal body⟩

/-! ## The handler of `POST /ingest` -/

/-- The handler registered by `app.Post("/ingest", ...)`: `c` is the request, `rdb` the store
as the request finds it, `fault` the error of the `LPush` call of this request, should it be
made. The result is the response and the store afterwards. -/
def ingest (c : Ctx) (rdb : Redis) (fault : GoError) : Response × Redis :=
  match c.BodyParser with
  | .error _ => (⟨400, [("error", "Invalid JSON")]⟩, rdb)
  | .ok payload =>
    match rdb.LPush "ingestion_queue" c.Body fault with
    | (some _, rdb1) => (⟨500, [("error", "Redis Queue Failed")]⟩, rdb1)
    | (none, rdb1) =>
      (⟨202, [("status", "accepted"),
              ("message", "Document Queued for Processing"),
              ("data", payload.DocumentID)]⟩, rdb1)

/-- The process serving a sequence of requests one after the other, each with the error of its
own `LPush` call: the responses in order, and the store at the end. -/
def serve : List (Ctx × GoError) → Redis → List Response × Redis
  | [], rdb => ([], rdb)
  | (c, fault) :: rest, rdb =>
    let r := ingest c rdb fault
    let rs := serve rest r.2
    (r.1 :: rs.1, rs.2)

/-! ## The process -/

/-- The function `os.Getenv` on an environment: the value of the variable, empty when it is
not set. -/
def Getenv (env : String → Option String) (key : String) : String := (env key).getD ""

/-- The address of the queue store that `main` resolves (`redisAddr`). -/
def redisAddr (env : String → Option String) : String :=
  let redisAddr := Getenv env "REDIS_ADDR"
  if redisAddr = "" then "localhost:6379" else redisAddr

/-- What the process does, as seen from outside. -/
inductive Event
  /-- The client made by `redis.NewClient` for an address. -/
  | newClient (addr : String)
  /-- The call `rdb.Ping(ctx).Result()` and the error it returned. -/
  | ping (err : GoError)
  /-- The calls `log.Fatalf` and `log.Fatal`: the message is logged and the process exits with
  status 1. -/
  | fatal (msg : String)
  /-- The route registered by `app.Post`. -/
  | post (path : String)
  /-- The call `app.Listen`, which binds the port and serves. -/
  | listen (addr : String)
  /-- A request served: the response sent. -/
  | respond (r : Response)
deriving DecidableEq, Repr

/-- The run of `main`: `env` is the environment, `pingErr` the error of the start-up `Ping`,
`listenErr` the error of binding the port, `store` the queue store and `traffic` the requests
that arrive, each with the error of its own `LPush`. The result is the events of the run in
order; after a `fatal` there is none. -/
def main (env : String → Option String) (pingErr listenErr : GoError) (store : Redis)
    (traffic : List (Ctx × GoError)) : List Event :=
  Event.newClient (redisAddr env) :: Event.ping pingErr ::
    match pingErr with
    | some e => [Event.fatal ("Could not connect to Redis: " ++ e)]
    | none =>
      Event.post "/ingest" :: Event.listen ":8080" ::
        match listenErr with
        | some e => [Event.fatal e]
        | none => (serve traffic store).1.map Event.respond

/-- The submission of the end-to-end scenario:
`{"user_id":"u1","document_id":"d1","content":"hello"}`. -/
def scenarioBody : Bytes :=
  Json.bytes "\x7b\"user_id\":\"u1\",\"document_id\":\"d1\",\"content\":\"hello\"\x7d"

/-! ## Facts about the decoder -/

namespace Json

/-- Reading a field after a store. -/
theorem getField_setField (p : IngestRequest) (f g : Field) (s : String) :
    getField (setField p f s) g = if g = f then s else getField p g := by
  cases f <;> cases g <;> simp [getField, setField]

/-- What an object submits, member by member. -/
theorem submitted_cons (m : String × Value) (ms : List (String × Value)) (f : Field) :
    submitted (m :: ms) f
      = if field? m.1 = some f then m.2 :: submitted ms f else submitted ms f := by
  unfold submitted
  by_cases h : field? m.1 = some f <;> simp [List.filter_cons, h]

/-- Two structs with the same three fields are equal. -/
theorem request_ext (p q : IngestRequest) (h : ∀ f, getField p f = getField q f) : p = q := by
  have h1 := h .UserID
  have h2 := h .DocumentID
  have h3 := h .Content
  cases p; cases q
  simp only [getField] at h1 h2 h3
  simp [h1, h2, h3]

/-- Storing members none of which is of a wrong type saves no error, and leaves in every
field the text stored last, or what the field held. -/
theorem foldl_storeMember (ms : List (String × Value)) :
    ∀ d : DecodeState, (∀ f, ∀ v ∈ submitted ms f, v.storable = true) →
      (ms.foldl storeMember d).savedError = d.savedError ∧
      ∀ f, getField (ms.foldl storeMember d).payload f
            = (lastString (submitted ms f)).getD (getField d.payload f) := by
  induction ms with
  | nil => intro d _; simp [submitted, lastString]
  | cons m ms ih =>
    intro d h
    have hrest : ∀ f, ∀ v ∈ submitted ms f, v.storable = true := by
      intro f v hv
      apply h f v
      rw [submitted_cons]
      split
      · exact List.mem_cons_of_mem _ hv
      · exact hv
    obtain ⟨he, hf⟩ := ih (storeMember d m) hrest
    rw [List.foldl_cons, he]
    cases hm : field? m.1 with
    | none =>
      have hd : storeMember d m = d := by simp [storeMember, hm]
      refine ⟨by rw [hd], fun f => ?_⟩
      rw [hf f, hd, submitted_cons, hm]
      simp
    | some f0 =>
      have hst : m.2.storable = true := by
        apply h f0 m.2
        rw [submitted_cons, if_pos hm]
        exact List.mem_cons_self _ _
      cases hv : m.2 with
      | string s0 =>
        have hd : storeMember d m = { d with payload := setField d.payload f0 s0 } := by
          simp [storeMember, hm, hv]
        refine ⟨by rw [hd], fun f => ?_⟩
        rw [hf f, hd, submitted_cons, hm]
        simp only [getField_setField]
        by_cases hff : f = f0
        · subst hff
          simp only [if_true, lastString, hv]
          cases lastString (submitted ms f) <;> simp
        · have : ¬ (some f0 = some f) := by
            intro h'; exact hff (Option.some.inj h').symm
          simp [hff, this]
      | null =>
        have hd : storeMember d m = d := by simp [storeMember, hm, hv]
        refine ⟨by rw [hd], fun f => ?_⟩
        rw [hf f, hd, submitted_cons, hm]
        by_cases hff : f = f0
        · subst hff
          simp only [if_true, lastString, hv]
          cases lastString (submitted ms f) <;> simp
        · have : ¬ (some f0 = some f) := by
            intro h'; exact hff (Option.some.inj h').symm
          simp [this]
      | bool => rw [hv] at hst; simp [Value.storable] at hst
      | number => rw [hv] at hst; simp [Value.storable] at hst
      | array => rw [hv] at hst; simp [Value.storable] at hst
      | object => rw [hv] at hst; simp [Value.storable] at hst

/-- A saved error stays saved. -/
theorem storeMember_saved (d : DecodeState) (m : String × Value) (h : d.savedError ≠ none) :
    (storeMember d m).savedError ≠ none := by
  unfold storeMember
  cases hd : d.savedError with
  | none => exact absurd hd h
  | some e =>
    cases field? m.1 with
    | none => simp [hd]
    | some f => cases m.2 <;> simp [hd, Option.orElse]

/-- A saved error stays saved to the end of the object. -/
theorem foldl_storeMember_saved (ms : List (String × Value)) :
    ∀ d : DecodeState, d.savedError ≠ none → (ms.foldl storeMember d).savedError ≠ none := by
  induction ms with
  | nil => intro d h; exact h
  | cons m ms ih => intro d h; exact ih _ (storeMember_saved d m h)

/-- A value of a wrong type for a field saves an error. -/
theorem foldl_storeMember_error (ms : List (String × Value)) :
    ∀ d : DecodeState, (∃ f, ∃ v ∈ submitted ms f, v.storable = false) →
      (ms.foldl storeMember d).savedError ≠ none := by
  induction ms with
  | nil => intro d ⟨f, v, hv, _⟩; simp [submitted] at hv
  | cons m ms ih =>
    intro d ⟨f, v, hv, hbad⟩
    rw [List.foldl_cons]
    rw [submitted_cons] at hv
    by_cases hm : field? m.1 = some f
    · rw [if_pos hm] at hv
      rcases List.mem_cons.mp hv with hhead | htail
      · apply foldl_storeMember_saved
        subst hhead
        unfold storeMember
        rw [hm]
        cases hv2 : m.2 <;> simp_all [Value.storable, Option.orElse] <;>
          cases d.savedError <;> simp
      · exact ih _ ⟨f, v, htail, hbad⟩
    · rw [if_neg hm] at hv
      exact ih _ ⟨f, v, hv, hbad⟩

/-- An object all of whose submitted values are storable decodes, and every field holds the
text stored last in it, or stays empty. -/
theorem Unmarshal_object (data : Bytes) (ms : List (String × Value))
    (hp : parse data = some (.object ms))
    (hs : ∀ f, ∀ v ∈ submitted ms f, v.storable = true) :
    ∃ p, Unmarshal data = .ok p ∧
      ∀ f, getField p f = (lastString (submitted ms f)).getD "" := by
  obtain ⟨he, hf⟩ := foldl_storeMember ms ⟨IngestRequest.new, none⟩ hs
  refine ⟨(ms.foldl storeMember ⟨IngestRequest.new, none⟩).payload, ?_, ?_⟩
  · simp only [Unmarshal, hp]
    simp only [he]
  · intro f
    rw [hf f]
    cases f <;> rfl

/-- The decoder fails exactly on input that is not well-formed JSON, on a top-level value
that is neither an object nor `null`, and on an object that submits something else than a
string or `null` for a field. -/
theorem Unmarshal_error_iff (data : Bytes) :
    (∃ e, Unmarshal data = .error e) ↔
      parse data = none ∨ (∃ v, parse data = some (.other v) ∧ v ≠ .null) ∨
      ∃ ms, parse data = some (.object ms) ∧ ∃ f, ∃ v ∈ submitted ms f, v.storable = false := by
  cases hp : parse data with
  | none => simp [Unmarshal, hp]
  | some doc =>
    cases doc with
    | other v => cases v <;> simp [Unmarshal, hp]
    | object ms =>
      simp only [Unmarshal, hp]
      constructor
      · intro ⟨e, he⟩
        right; right
        refine ⟨ms, rfl, ?_⟩
        by_contra hno
        push_neg at hno
        have hs : ∀ f, ∀ v ∈ submitted ms f, v.storable = true := by
          intro f v hv
          have := hno f v hv
          simpa using this
        have := (foldl_storeMember ms ⟨IngestRequest.new, none⟩ hs).1
        simp only at this
        rw [this] at he
        simp at he
      · intro h
        rcases h with h | ⟨v, h, _⟩ | ⟨ms2, h, hbad⟩
        · simp at h
        · simp at h
        · have hms : ms2 = ms := by simpa using h.symm
          subst hms
          have := foldl_storeMember_error ms2 ⟨IngestRequest.new, none⟩ hbad
          cases hs : (ms2.foldl storeMember ⟨IngestRequest.new, none⟩).savedError with
          | none => exact absurd hs this
          | some e => exact ⟨e, rfl⟩

end Json

/-! ## The handler, branch by branch -/

/-- The decode branch: the body does not decode. -/
theorem ingest_error (c : Ctx) (rdb : Redis) (fault : GoError) (e : String)
    (h : c.BodyParser = .error e) :
    ingest c rdb fault = (⟨400, [("error", "Invalid JSON")]⟩, rdb) := by
  simp only [ingest, h]

/-- The append branch: the body decodes and the push fails. -/
theorem ingest_fault (c : Ctx) (req : IngestRequest) (rdb : Redis) (e : String)
    (h : c.BodyParser = .ok req) :
    ingest c rdb (some e)
      = (⟨500, [("error", "Redis Queue Failed")]⟩,
         ⟨rdb.lists, ⟨"ingestion_queue", c.Body⟩ :: rdb.issued⟩) := by
  simp only [ingest, h, Redis.LPush]

/-- The accepted branch: the body decodes and the push succeeds. -/
theorem ingest_ok (c : Ctx) (req : IngestRequest) (rdb : Redis)
    (h : c.BodyParser = .ok req) :
    ingest c rdb none
      = (⟨202, [("status", "accepted"), ("message", "Document Queued for Processing"),
                ("data", req.DocumentID)]⟩,
         ⟨fun k => if k = "ingestion_queue" then c.Body :: rdb.lists k else rdb.lists k,
          ⟨"ingestion_queue", c.Body⟩ :: rdb.issued⟩) := by
  simp only [ingest, h, Redis.LPush]

/-- The response does not depend on the store. -/
theorem ingest_response_indep (c : Ctx) (fault : GoError) (rdb rdb2 : Redis) :
    (ingest c rdb fault).1 = (ingest c rdb2 fault).1 := by
  unfold ingest
  cases c.BodyParser with
  | error e => rfl
  | ok req => cases fault <;> rfl

/-- The commands a request issues: one push of its body when it decodes, none otherwise. -/
theorem ingest_issued (c : Ctx) (rdb : Redis) (fault : GoError) :
    (ingest c rdb fault).2.issued
      = (match c.BodyParser with
          | .ok _ => [(⟨"ingestion_queue", c.Body⟩ : LPushCmd)]
          | .error _ => []) ++ rdb.issued := by
  unfold ingest
  cases c.BodyParser with
  | error e => rfl
  | ok req => cases fault <;> rfl

/-- Every response of a sequence is the one its request gets alone. -/
theorem serve_responses (traffic : List (Ctx × GoError)) :
    ∀ rdb : Redis,
      (serve traffic rdb).1 = traffic.map (fun t => (ingest t.1 Redis.empty t.2).1) := by
  induction traffic with
  | nil => intro rdb; rfl
  | cons t rest ih =>
    intro rdb
    obtain ⟨c, fault⟩ := t
    simp only [serve, List.map_cons, ih]
    rw [ingest_response_indep c fault rdb Redis.empty]

/-- The commands a sequence of requests issues: those of each request, the latest first. -/
theorem serve_issued (traffic : List (Ctx × GoError)) :
    ∀ rdb : Redis,
      (serve traffic rdb).2.issued
        = (traffic.map (fun t => (ingest t.1 Redis.empty t.2).2.issued)).reverse.flatten
            ++ rdb.issued := by
  induction traffic with
  | nil => intro rdb; simp [serve]
  | cons t rest ih =>
    intro rdb
    obtain ⟨c, fault⟩ := t
    simp only [serve, ih, List.map_cons, List.reverse_cons, List.flatten_append,
      List.flatten_cons, List.flatten_nil, List.append_nil, List.append_assoc]
    rw [ingest_issued c rdb fault, ingest_issued c Redis.empty fault]
    simp [Redis.empty]

set_option maxRecDepth 100000

/-! ## The claims -/

/-- C1: a valid submission is accepted. For every request whose body decodes into an
`IngestRequest`, when the append succeeds the handler answers 202 with `data` equal to the
decoded `document_id` and issues exactly one push, whose payload is the request body; and a
JSON body that is an object submitting one string for each of `user_id`, `document_id` and
`content` is such a request, its `data` being the `document_id` submitted. -/
theorem ingest_valid_submission :
    (∀ (c : Ctx) (req : IngestRequest) (rdb : Redis), c.BodyParser = .ok req →
      (ingest c rdb none).1.status = 202 ∧
      (ingest c rdb none).1.body.get "data" = some req.DocumentID ∧
      (ingest c rdb none).2.issued = ⟨"ingestion_queue", c.Body⟩ :: rdb.issued) ∧
    (∀ (body : Bytes) (ms : List (String × Json.Value)) (u d ct : String) (rdb : Redis),
      Json.parse body = some (.object ms) →
      Json.submitted ms .UserID = [.string u] →
      Json.submitted ms .DocumentID = [.string d] →
      Json.submitted ms .Content = [.string ct] →
      (Ctx.json body).BodyParser = .ok ⟨u, d, ct⟩ ∧
      (ingest (Ctx.json body) rdb none).1.status = 202 ∧
      (ingest (Ctx.json body) rdb none).1.body.get "data" = some d ∧
      (ingest (Ctx.json body) rdb none).2.issued = ⟨"ingestion_queue", body⟩ :: rdb.issued) := by
  have general : ∀ (c : Ctx) (req : IngestRequest) (rdb : Redis), c.BodyParser = .ok req →
      (ingest c rdb none).1.status = 202 ∧
      (ingest c rdb none).1.body.get "data" = some req.DocumentID ∧
      (ingest c rdb none).2.issued = ⟨"ingestion_queue", c.Body⟩ :: rdb.issued := by
    intro c req rdb h
    rw [ingest_ok c req rdb h]
    exact ⟨rfl, rfl, rfl⟩
  refine ⟨general, ?_⟩
  intro body ms u d ct rdb hp hu hd hc
  have hs : ∀ f, ∀ v ∈ Json.submitted ms f, v.storable = true := by
    intro f v hv
    cases f
    · rw [hu] at hv; simp at hv; subst hv; rfl
    · rw [hd] at hv; simp at hv; subst hv; rfl
    · rw [hc] at hv; simp at hv; subst hv; rfl
  obtain ⟨p, hok, hf⟩ := Json.Unmarshal_object body ms hp hs
  have hpq : p = ⟨u, d, ct⟩ := by
    apply Json.request_ext
    intro f
    rw [hf f]
    cases f
    · rw [hu]; rfl
    · rw [hd]; rfl
    · rw [hc]; rfl
  subst hpq
  have hdec : (Ctx.json body).BodyParser = .ok ⟨u, d, ct⟩ := hok
  exact ⟨hdec, general (Ctx.json body) _ rdb hdec⟩

/-- C1 at the submission of the end-to-end scenario, on an empty store: the body is an
object of three strings, it decodes to them, and it is accepted with `data = "d1"` and one
push of the body. -/
theorem ingest_valid_submission_witness :
    Json.parse scenarioBody
      = some (.object [("user_id", .string "u1"), ("document_id", .string "d1"),
          ("content", .string "hello")]) ∧
    (Ctx.json scenarioBody).BodyParser = .ok ⟨"u1", "d1", "hello"⟩ ∧
    (ingest (Ctx.json scenarioBody) Redis.empty none).1.status = 202 ∧
    (ingest (Ctx.json scenarioBody) Redis.empty none).1.body.get "data" = some "d1" ∧
    (ingest (Ctx.json scenarioBody) Redis.empty none).2.issued
      = [⟨"ingestion_queue", scenarioBody⟩] :=
  have h := ingest_valid_submission.2 scenarioBody
    [("user_id", .string "u1"), ("document_id", .string "d1"), ("content", .string "hello")]
    "u1" "d1" "hello" Redis.empty (by decide) (by decide) (by decide) (by decide)
  ⟨by decide, h.1,
   ingest_valid_submission.1 (Ctx.json scenarioBody) ⟨"u1", "d1", "hello"⟩ Redis.empty h.1⟩

/-- C2: a request whose body does not decode is refused. For every request whose
`BodyParser` returns an error the handler answers 400 with the field `error`, issues no
command and leaves the store as it was, whatever the queue would have answered; and a JSON
body is such a request when it is not well-formed JSON (such as `not-json`), when its value
is neither an object nor `null`, and when it submits a value of the wrong type for a field. -/
theorem ingest_rejects_undecodable :
    (∀ (c : Ctx) (rdb : Redis) (fault : GoError) (e : String), c.BodyParser = .error e →
      ingest c rdb fault = (⟨400, [("error", "Invalid JSON")]⟩, rdb)) ∧
    (∀ (body : Bytes) (rdb : Redis) (fault : GoError),
      (Json.parse body = none ∨
        (∃ v, Json.parse body = some (.other v) ∧ v ≠ .null) ∨
        (∃ ms, Json.parse body = some (.object ms) ∧
          ∃ f, ∃ v ∈ Json.submitted ms f, v.storable = false)) →
      ingest (Ctx.json body) rdb fault = (⟨400, [("error", "Invalid JSON")]⟩, rdb)) := by
  refine ⟨fun c rdb fault e h => ingest_error c rdb fault e h, ?_⟩
  intro body rdb fault h
  obtain ⟨e, he⟩ := (Json.Unmarshal_error_iff body).mpr h
  exact ingest_error (Ctx.json body) rdb fault e he

/-- C2 at the body `not-json` of the end-to-end scenario, and at a body with a number for
`user_id`. -/
theorem ingest_rejects_undecodable_witness :
    Json.parse (Json.bytes "not-json") = none ∧
    ingest (Ctx.json (Json.bytes "not-json")) Redis.empty none
      = (⟨400, [("error", "Invalid JSON")]⟩, Redis.empty) ∧
    (ingest (Ctx.json (Json.bytes "not-json")) Redis.empty none).1.body.get "error"
      = some "Invalid JSON" ∧
    ingest (Ctx.json (Json.bytes "\x7b\"user_id\":5\x7d")) Redis.empty none
      = (⟨400, [("error", "Invalid JSON")]⟩, Redis.empty) :=
  have h := ingest_rejects_undecodable.2 (Json.bytes "not-json") Redis.empty none
    (Or.inl (by decide))
  ⟨by decide, h, by rw [h]; rfl,
   ingest_rejects_undecodable.2 (Json.bytes "\x7b\"user_id\":5\x7d") Redis.empty none
    (Or.inr (Or.inr ⟨[("user_id", .number)], by decide, .UserID, .number, by decide,
      by decide⟩))⟩

/-- C3: a failed append is a 500. For every request whose body decodes, whatever the decoded
fields are, when the append returns an error the handler answers 500 with the field `error`;
the push was issued once and is not tried again. -/
theorem ingest_queue_failure (c : Ctx) (req : IngestRequest) (rdb : Redis) (e : String)
    (hdec : c.BodyParser = .ok req) :
    (ingest c rdb (some e)).1 = ⟨500, [("error", "Redis Queue Failed")]⟩ ∧
    (ingest c rdb (some e)).1.body.get "error" = some "Redis Queue Failed" ∧
    (ingest c rdb (some e)).2.issued = ⟨"ingestion_queue", c.Body⟩ :: rdb.issued := by
  rw [ingest_fault c req rdb e hdec]
  exact ⟨rfl, rfl, rfl⟩

/-- C3 at the submission of the end-to-end scenario, the store refusing the connection. -/
theorem ingest_queue_failure_witness :
    (Ctx.json scenarioBody).BodyParser
      = .ok ⟨"u1", "d1", "hello"⟩ ∧
    (ingest (Ctx.json scenarioBody)
        Redis.empty (some "connection refused")).1
      = ⟨500, [("error", "Redis Queue Failed")]⟩ ∧
    (ingest (Ctx.json scenarioBody)
        Redis.empty (some "connection refused")).2.issued
      = [⟨"ingestion_queue", scenarioBody⟩] :=
  have h := ingest_queue_failure (Ctx.json scenarioBody)
      ⟨"u1", "d1", "hello"⟩ Redis.empty "connection refused" (by rfl)
  ⟨by rfl, h.1, h.2.2⟩

/-- C4: the accepted response. The submission of the end-to-end scenario, with a succeeding
append, is answered 202 with the body of fields `status = "accepted"`,
`message = "Document Queued for Processing"` and `data = "d1"`; and every request answered
202 decoded, its append succeeded, and the response body has exactly these three fields, with
`data` the decoded `document_id`. -/
theorem ingest_accepted_body :
    (∀ rdb : Redis,
      (ingest (Ctx.json scenarioBody) rdb none).1
        = ⟨202, [("status", "accepted"), ("message", "Document Queued for Processing"),
                 ("data", "d1")]⟩) ∧
    (∀ (c : Ctx) (rdb : Redis) (fault : GoError), (ingest c rdb fault).1.status = 202 →
      ∃ req, c.BodyParser = .ok req ∧ fault = none ∧
        (ingest c rdb fault).1.body
          = [("status", "accepted"), ("message", "Document Queued for Processing"),
             ("data", req.DocumentID)] ∧
        ∀ k, (ingest c rdb fault).1.body.get k
          = if k = "status" then some "accepted"
            else if k = "message" then some "Document Queued for Processing"
            else if k = "data" then some req.DocumentID
            else none) := by
  constructor
  · intro rdb
    have h : (Ctx.json scenarioBody).BodyParser = .ok ⟨"u1", "d1", "hello"⟩ := by rfl
    rw [ingest_ok _ _ rdb h]
  · intro c rdb fault h
    cases hb : c.BodyParser with
    | error e => rw [ingest_error c rdb fault e hb] at h; simp at h
    | ok req =>
      cases fault with
      | some e => rw [ingest_fault c req rdb e hb] at h; simp at h
      | none =>
        refine ⟨req, rfl, rfl, ?_, ?_⟩
        · rw [ingest_ok c req rdb hb]
        · intro k
          rw [ingest_ok c req rdb hb]
          simp only [Map.get, List.lookup]
          by_cases h1 : k = "status"
          · simp [h1]
          · by_cases h2 : k = "message"
            · simp [h2]
            · by_cases h3 : k = "data"
              · simp [h3]
              · have e1 : (k == "status") = false := by simpa using h1
                have e2 : (k == "message") = false := by simpa using h2
                have e3 : (k == "data") = false := by simpa using h3
                simp [h1, h2, h3, e1, e2, e3]

/-- C4 on an empty store: the response to the scenario, and what its status 202 tells. -/
theorem ingest_accepted_body_witness :
    (ingest (Ctx.json scenarioBody) Redis.empty none).1
      = ⟨202, [("status", "accepted"), ("message", "Document Queued for Processing"),
               ("data", "d1")]⟩ ∧
    (ingest (Ctx.json scenarioBody) Redis.empty none).1.body.get "data" = some "d1" ∧
    (ingest (Ctx.json scenarioBody) Redis.empty none).1.body.get "error" = none ∧
    ∃ req, (Ctx.json scenarioBody).BodyParser = .ok req ∧
      (ingest (Ctx.json scenarioBody) Redis.empty none).1.body
        = [("status", "accepted"), ("message", "Document Queued for Processing"),
           ("data", req.DocumentID)] :=
  have h := ingest_accepted_body.1 Redis.empty
  have h2 := ingest_accepted_body.2 (Ctx.json scenarioBody) Redis.empty none (by rw [h])
  ⟨h, by rw [h]; rfl, by rw [h]; rfl,
   h2.elim fun req hreq => ⟨req, hreq.1, hreq.2.2.1⟩⟩

/-- C5: the append is one push of the raw body to the head of `ingestion_queue`. For every
request whose body decodes, whatever the decoded fields are, the handler issues the single
command `LPUSH ingestion_queue body` with the bytes of the request body, not the decoded
struct; when the push succeeds the queue is the body followed by what it held, and no other
list changes. -/
theorem ingest_pushes_raw_body (c : Ctx) (req : IngestRequest) (rdb : Redis) (fault : GoError)
    (hdec : c.BodyParser = .ok req) :
    (ingest c rdb fault).2.issued = ⟨"ingestion_queue", c.Body⟩ :: rdb.issued ∧
    (∀ req2 : IngestRequest,
      (ingest ⟨c.Body, .ok req2⟩ rdb fault).2.issued = (ingest c rdb fault).2.issued ∧
      (ingest ⟨c.Body, .ok req2⟩ rdb fault).2.lists = (ingest c rdb fault).2.lists) ∧
    (fault = none →
      (ingest c rdb fault).2.lists "ingestion_queue" = c.Body :: rdb.lists "ingestion_queue" ∧
      ∀ k, k ≠ "ingestion_queue" → (ingest c rdb fault).2.lists k = rdb.lists k) := by
  cases fault with
  | some e =>
    refine ⟨?_, ?_, ?_⟩
    · rw [ingest_fault c req rdb e hdec]
    · intro req2
      rw [ingest_fault c req rdb e hdec, ingest_fault ⟨c.Body, .ok req2⟩ req2 rdb e rfl]
      exact ⟨rfl, rfl⟩
    · intro h; cases h
  | none =>
    refine ⟨?_, ?_, ?_⟩
    · rw [ingest_ok c req rdb hdec]
    · intro req2
      rw [ingest_ok c req rdb hdec, ingest_ok ⟨c.Body, .ok req2⟩ req2 rdb rfl]
      exact ⟨rfl, rfl⟩
    · intro _
      rw [ingest_ok c req rdb hdec]
      refine ⟨by simp, ?_⟩
      intro k hk
      simp [hk]

/-- C5 at a body written with spaces and an unknown member, on a queue that holds an older
entry: the queue then holds the body as written, spaces and unknown member included, before
the older entry. -/
theorem ingest_pushes_raw_body_witness :
    (Ctx.json (Json.bytes "\x7b \"document_id\" : \"d1\", \"extra\" : [1, 2] \x7d")).BodyParser
      = .ok ⟨"", "d1", ""⟩ ∧
    (ingest (Ctx.json (Json.bytes "\x7b \"document_id\" : \"d1\", \"extra\" : [1, 2] \x7d"))
        ⟨fun k => if k = "ingestion_queue" then [Json.bytes "older"] else [], []⟩
        none).2.issued
      = [⟨"ingestion_queue",
          Json.bytes "\x7b \"document_id\" : \"d1\", \"extra\" : [1, 2] \x7d"⟩] ∧
    (ingest (Ctx.json (Json.bytes "\x7b \"document_id\" : \"d1\", \"extra\" : [1, 2] \x7d"))
        ⟨fun k => if k = "ingestion_queue" then [Json.bytes "older"] else [], []⟩
        none).2.lists "ingestion_queue"
      = [Json.bytes "\x7b \"document_id\" : \"d1\", \"extra\" : [1, 2] \x7d",
         Json.bytes "older"] :=
  have h := ingest_pushes_raw_body
    (Ctx.json (Json.bytes "\x7b \"document_id\" : \"d1\", \"extra\" : [1, 2] \x7d"))
    ⟨"", "d1", ""⟩
    ⟨fun k => if k = "ingestion_queue" then [Json.bytes "older"] else [], []⟩ none (by rfl)
  ⟨by rfl, h.1, (h.2.2 rfl).1⟩

/-- C6: the handler is not idempotent. The same valid submission handled twice, both appends
succeeding, is answered 202 twice and pushed twice: the queue gains two entries equal to the
body, one more than after a single handling, and nothing is deduplicated. -/
theorem ingest_not_idempotent (c : Ctx) (req : IngestRequest) (rdb : Redis)
    (hdec : c.BodyParser = .ok req) :
    (serve [(c, none), (c, none)] rdb).1
      = [⟨202, [("status", "accepted"), ("message", "Document Queued for Processing"),
                ("data", req.DocumentID)]⟩,
         ⟨202, [("status", "accepted"), ("message", "Document Queued for Processing"),
                ("data", req.DocumentID)]⟩] ∧
    (serve [(c, none), (c, none)] rdb).2.issued
      = ⟨"ingestion_queue", c.Body⟩ :: ⟨"ingestion_queue", c.Body⟩ :: rdb.issued ∧
    (serve [(c, none), (c, none)] rdb).2.lists "ingestion_queue"
      = c.Body :: c.Body :: rdb.lists "ingestion_queue" ∧
    (serve [(c, none), (c, none)] rdb).2.lists "ingestion_queue"
      ≠ (serve [(c, none)] rdb).2.lists "ingestion_queue" := by
  simp only [serve, ingest_ok c req _ hdec]
  refine ⟨trivial, trivial, by simp, ?_⟩
  intro h
  have := congrArg List.length h
  simp at this

/-- C6 at the submission of the end-to-end scenario sent twice to an empty store. -/
theorem ingest_not_idempotent_witness :
    (Ctx.json scenarioBody).BodyParser = .ok ⟨"u1", "d1", "hello"⟩ ∧
    (serve [(Ctx.json scenarioBody, none), (Ctx.json scenarioBody, none)] Redis.empty).1
      = [⟨202, [("status", "accepted"), ("message", "Document Queued for Processing"),
                ("data", "d1")]⟩,
         ⟨202, [("status", "accepted"), ("message", "Document Queued for Processing"),
                ("data", "d1")]⟩] ∧
    (serve [(Ctx.json scenarioBody, none), (Ctx.json scenarioBody, none)]
        Redis.empty).2.lists "ingestion_queue"
      = [scenarioBody, scenarioBody] :=
  have h := ingest_not_idempotent (Ctx.json scenarioBody) ⟨"u1", "d1", "hello"⟩ Redis.empty
    (by rfl)
  ⟨by rfl, h.1, h.2.2.1⟩

/-- C7: requests are isolated from one another. The response to a request is the same
whatever the store holds and whatever was issued before; the commands it issues are fixed by
the request alone; in any sequence of requests the response at a request's position is the
one the request gets on its own, whatever comes before or after it; so N submissions that
decode, all appends succeeding, get N 202 responses, each echoing its own `document_id`, and
issue N pushes, each of its own body. -/
theorem ingest_isolated :
    (∀ (c : Ctx) (fault : GoError) (rdb rdb2 : Redis),
      (ingest c rdb fault).1 = (ingest c rdb2 fault).1) ∧
    (∀ c : Ctx, ∃ cmds : List LPushCmd, ∀ (rdb : Redis) (fault : GoError),
      (ingest c rdb fault).2.issued = cmds ++ rdb.issued) ∧
    (∀ (before after : List (Ctx × GoError)) (c : Ctx) (fault : GoError) (rdb : Redis),
      (serve (before ++ (c, fault) :: after) rdb).1[before.length]?
        = some (ingest c Redis.empty fault).1) ∧
    (∀ (subs : List (Bytes × IngestRequest)) (rdb : Redis),
      (serve (subs.map (fun s => (⟨s.1, .ok s.2⟩, none))) rdb).1
        = subs.map (fun s =>
            ⟨202, [("status", "accepted"), ("message", "Document Queued for Processing"),
                   ("data", s.2.DocumentID)]⟩) ∧
      (serve (subs.map (fun s => (⟨s.1, .ok s.2⟩, none))) rdb).2.issued
        = (subs.map (fun s => (⟨"ingestion_queue", s.1⟩ : LPushCmd))).reverse ++ rdb.issued) := by
  refine ⟨ingest_response_indep, ?_, ?_, ?_⟩
  · intro c
    exact ⟨_, fun rdb fault => ingest_issued c rdb fault⟩
  · intro before after c fault rdb
    rw [serve_responses, List.map_append, List.map_cons]
    rw [List.getElem?_append_right (by simp)]
    simp
  · intro subs rdb
    constructor
    · rw [serve_responses, List.map_map]
      apply List.map_congr_left
      intro s _
      simp only [Function.comp]
      rw [ingest_ok ⟨s.1, .ok s.2⟩ s.2 Redis.empty rfl]
    · rw [serve_issued, List.map_map]
      congr 1
      induction subs with
      | nil => rfl
      | cons s rest ih =>
        simp only [List.map_cons, List.reverse_cons, List.flatten_append, ih,
          List.flatten_cons, List.flatten_nil, List.append_nil, Function.comp]
        rw [ingest_ok ⟨s.1, .ok s.2⟩ s.2 Redis.empty rfl]
        rfl

/-- C7 at two submissions with the documents `d1` and `d2`, the second arriving after a body
that does not decode: each is answered with its own document. -/
theorem ingest_isolated_witness :
    (serve [(Ctx.json scenarioBody, none), (Ctx.json (Json.bytes "not-json"), none),
            (Ctx.json (Json.bytes "\x7b\"document_id\":\"d2\"\x7d"), none)] Redis.empty).1
      = [⟨202, [("status", "accepted"), ("message", "Document Queued for Processing"),
                ("data", "d1")]⟩,
         ⟨400, [("error", "Invalid JSON")]⟩,
         ⟨202, [("status", "accepted"), ("message", "Document Queued for Processing"),
                ("data", "d2")]⟩] ∧
    (serve [(Ctx.json scenarioBody, none), (Ctx.json (Json.bytes "not-json"), none),
            (Ctx.json (Json.bytes "\x7b\"document_id\":\"d2\"\x7d"), none)]
        Redis.empty).1[2]?
      = some (ingest (Ctx.json (Json.bytes "\x7b\"document_id\":\"d2\"\x7d")) Redis.empty
          none).1 :=
  ⟨by rfl,
   ingest_isolated.2.2.1
    [(Ctx.json scenarioBody, none), (Ctx.json (Json.bytes "not-json"), none)] []
    (Ctx.json (Json.bytes "\x7b\"document_id\":\"d2\"\x7d")) none Redis.empty⟩

/-- C8: start-up is fail-fast. Every run of `main` pings the queue store right after making
the client; when the ping fails the run is these two events and the fatal exit, with no
route, no port and no response; every route registered, port bound and response sent comes
after a ping that passed; and behind every response the route is registered and the port
bound. When ping and bind both pass, the requests that arrive are served. -/
theorem main_fail_fast (env : String → Option String) (pingErr listenErr : GoError)
    (store : Redis) (traffic : List (Ctx × GoError)) :
    (∃ rest, main env pingErr listenErr store traffic
      = Event.newClient (redisAddr env) :: Event.ping pingErr :: rest) ∧
    (∀ e, pingErr = some e →
      main env pingErr listenErr store traffic
        = [Event.newClient (redisAddr env), Event.ping (some e),
           Event.fatal ("Could not connect to Redis: " ++ e)]) ∧
    (∀ pre ev post, main env pingErr listenErr store traffic = pre ++ ev :: post →
      ((∃ p, ev = Event.post p) ∨ (∃ a, ev = Event.listen a) ∨ (∃ r, ev = Event.respond r)) →
      pingErr = none ∧ Event.ping none ∈ pre) ∧
    (∀ pre r post, main env pingErr listenErr store traffic = pre ++ Event.respond r :: post →
      listenErr = none ∧ Event.post "/ingest" ∈ pre ∧ Event.listen ":8080" ∈ pre) ∧
    (pingErr = none → listenErr = none →
      main env pingErr listenErr store traffic
        = [Event.newClient (redisAddr env), Event.ping none, Event.post "/ingest",
           Event.listen ":8080"] ++ (serve traffic store).1.map Event.respond) := by
  refine ⟨⟨_, rfl⟩, ?_, ?_, ?_, ?_⟩
  · intro e he
    subst he
    rfl
  · intro pre ev post h hev
    rcases pre with _ | ⟨x, _ | ⟨y, pre2⟩⟩
    · simp only [main, List.nil_append, List.cons.injEq] at h
      rcases hev with ⟨p, hp⟩ | ⟨a, ha⟩ | ⟨r, hr⟩
      · rw [hp] at h; exact absurd h.1 (by simp)
      · rw [ha] at h; exact absurd h.1 (by simp)
      · rw [hr] at h; exact absurd h.1 (by simp)
    · simp only [main, List.cons_append, List.nil_append, List.cons.injEq] at h
      rcases hev with ⟨p, hp⟩ | ⟨a, ha⟩ | ⟨r, hr⟩
      · rw [hp] at h; exact absurd h.2.1 (by simp)
      · rw [ha] at h; exact absurd h.2.1 (by simp)
      · rw [hr] at h; exact absurd h.2.1 (by simp)
    · simp only [main, List.cons_append, List.cons.injEq] at h
      obtain ⟨_, hy, hrest⟩ := h
      cases pingErr with
      | none => exact ⟨rfl, by rw [← hy]; simp⟩
      | some e =>
        exfalso
        simp only at hrest
        rcases pre2 with _ | ⟨z, pre3⟩
        · simp only [List.nil_append, List.cons.injEq] at hrest
          rcases hev with ⟨p, hp⟩ | ⟨a, ha⟩ | ⟨r, hr⟩
          · rw [hp] at hrest; exact absurd hrest.1 (by simp)
          · rw [ha] at hrest; exact absurd hrest.1 (by simp)
          · rw [hr] at hrest; exact absurd hrest.1 (by simp)
        · simp at hrest
  · intro pre r post h
    rcases pre with _ | ⟨x, _ | ⟨y, pre2⟩⟩
    · simp [main] at h
    · simp [main] at h
    · simp only [main, List.cons_append, List.cons.injEq] at h
      obtain ⟨_, _, hrest⟩ := h
      cases pingErr with
      | some e =>
        exfalso
        rcases pre2 with _ | ⟨z, pre3⟩
        · simp at hrest
        · simp at hrest
      | none =>
        simp only at hrest
        rcases pre2 with _ | ⟨z, _ | ⟨w, pre4⟩⟩
        · simp at hrest
        · simp at hrest
        · simp only [List.cons_append, List.cons.injEq] at hrest
          obtain ⟨hz, hw, hrest2⟩ := hrest
          cases listenErr with
          | some e =>
            exfalso
            rcases pre4 with _ | ⟨v, pre5⟩
            · simp at hrest2
            · simp at hrest2
          | none => exact ⟨rfl, by rw [← hz]; simp, by rw [← hw]; simp⟩
  · intro hp hl
    subst hp hl
    rfl

/-- C8 at two runs with `REDIS_ADDR` unset: a store that refuses the connection, and a store
that answers, to which the submission of the end-to-end scenario is then sent. -/
theorem main_fail_fast_witness :
    main (fun _ => none) (some "connection refused") none Redis.empty
        [(Ctx.json scenarioBody, none)]
      = [Event.newClient "localhost:6379", Event.ping (some "connection refused"),
         Event.fatal "Could not connect to Redis: connection refused"] ∧
    main (fun _ => none) none none Redis.empty [(Ctx.json scenarioBody, none)]
      = [Event.newClient "localhost:6379", Event.ping none, Event.post "/ingest",
         Event.listen ":8080",
         Event.respond
          ⟨202, [("status", "accepted"), ("message", "Document Queued for Processing"),
                 ("data", "d1")]⟩] :=
  ⟨(main_fail_fast (fun _ => none) (some "connection refused") none Redis.empty
      [(Ctx.json scenarioBody, none)]).2.1 "connection refused" rfl,
   ((main_fail_fast (fun _ => none) none none Redis.empty
      [(Ctx.json scenarioBody, none)]).2.2.2.2 rfl rfl).trans (by rfl)⟩

/-- C9: the address of the queue store. It is the value of `REDIS_ADDR` when that is set and
not empty, and `localhost:6379` when it is unset or empty; two environments that agree on
`REDIS_ADDR` give the same address; and it is the address the client of every run is made
for. -/
theorem redisAddr_resolution (env : String → Option String) :
    (∀ a, env "REDIS_ADDR" = some a → a ≠ "" → redisAddr env = a) ∧
    (env "REDIS_ADDR" = none → redisAddr env = "localhost:6379") ∧
    (env "REDIS_ADDR" = some "" → redisAddr env = "localhost:6379") ∧
    (∀ env2 : String → Option String,
      env2 "REDIS_ADDR" = env "REDIS_ADDR" → redisAddr env2 = redisAddr env) ∧
    (∀ (pingErr listenErr : GoError) (store : Redis) (traffic : List (Ctx × GoError)),
      (main env pingErr listenErr store traffic).head? = some (Event.newClient (redisAddr env))
      ∧ ∀ a, Event.newClient a ∈ main env pingErr listenErr store traffic → a = redisAddr env)
    := by
  refine ⟨?_, ?_, ?_, ?_, ?_⟩
  · intro a ha hne
    simp [redisAddr, Getenv, ha, hne]
  · intro h
    simp [redisAddr, Getenv, h]
  · intro h
    simp [redisAddr, Getenv, h]
  · intro env2 h
    simp [redisAddr, Getenv, h]
  · intro pingErr listenErr store traffic
    refine ⟨rfl, ?_⟩
    intro a ha
    cases pingErr with
    | some e => simpa [main] using ha
    | none =>
      cases listenErr with
      | some e => simpa [main] using ha
      | none => simpa [main] using ha

/-- C9 at an environment that sets `REDIS_ADDR` to `redis:6379` among other variables, at
one that sets it to the empty string, and at one that does not set it. -/
theorem redisAddr_resolution_witness :
    redisAddr (fun k => if k = "REDIS_ADDR" then some "redis:6379"
      else if k = "PORT" then some "9090" else none) = "redis:6379" ∧
    redisAddr (fun k => if k = "REDIS_ADDR" then some "" else none) = "localhost:6379" ∧
    redisAddr (fun _ => none) = "localhost:6379" :=
  ⟨(redisAddr_resolution _).1 "redis:6379" (by decide) (by decide),
   (redisAddr_resolution _).2.2.1 (by decide),
   (redisAddr_resolution _).2.1 rfl⟩

/-- C10: presence of the fields is not validated. A JSON object that submits nothing for
`document_id`, and no value of a wrong type, decodes with every field it does not submit
empty; with a succeeding append it is answered 202 with `data` the empty string and its body
is pushed as it is; `{}` is such a body. A request is answered 400 only when its body does
not decode, which for a JSON body means: not well-formed JSON, a value that is neither an
object nor `null`, or a value of the wrong type for a field. -/
theorem ingest_presence_not_validated :
    (∀ (body : Bytes) (ms : List (String × Json.Value)) (rdb : Redis),
      Json.parse body = some (.object ms) →
      Json.submitted ms .DocumentID = [] →
      (∀ f, ∀ v ∈ Json.submitted ms f, v.storable = true) →
      ∃ req, (Ctx.json body).BodyParser = .ok req ∧
        (∀ f, Json.submitted ms f = [] → Json.getField req f = "") ∧
        (ingest (Ctx.json body) rdb none).1
          = ⟨202, [("status", "accepted"), ("message", "Document Queued for Processing"),
                   ("data", "")]⟩ ∧
        (ingest (Ctx.json body) rdb none).2.lists "ingestion_queue"
          = body :: rdb.lists "ingestion_queue") ∧
    (∀ rdb : Redis,
      (Ctx.json (Json.bytes "\x7b\x7d")).BodyParser = .ok ⟨"", "", ""⟩ ∧
      (ingest (Ctx.json (Json.bytes "\x7b\x7d")) rdb none).1
        = ⟨202, [("status", "accepted"), ("message", "Document Queued for Processing"),
                 ("data", "")]⟩ ∧
      (ingest (Ctx.json (Json.bytes "\x7b\x7d")) rdb none).2.lists "ingestion_queue"
        = Json.bytes "\x7b\x7d" :: rdb.lists "ingestion_queue") ∧
    (∀ (c : Ctx) (rdb : Redis) (fault : GoError),
      (ingest c rdb fault).1.status = 400 ↔ ∃ e, c.BodyParser = .error e) ∧
    (∀ body : Bytes,
      (∃ e, (Ctx.json body).BodyParser = .error e) ↔
        (Json.parse body = none ∨
          (∃ v, Json.parse body = some (.other v) ∧ v ≠ .null) ∨
          (∃ ms, Json.parse body = some (.object ms) ∧
            ∃ f, ∃ v ∈ Json.submitted ms f, v.storable = false))) := by
  refine ⟨?_, ?_, ?_, ?_⟩
  · intro body ms rdb hp hd hs
    obtain ⟨p, hok, hf⟩ := Json.Unmarshal_object body ms hp hs
    have hdec : (Ctx.json body).BodyParser = .ok p := hok
    have hdoc : p.DocumentID = "" := by
      have := hf .DocumentID
      rw [hd] at this
      exact this
    refine ⟨p, hdec, ?_, ?_, ?_⟩
    · intro f hnone
      rw [hf f, hnone]
      rfl
    · rw [ingest_ok _ p rdb hdec, hdoc]
    · rw [ingest_ok _ p rdb hdec]
      simp [Ctx.json]
  · intro rdb
    have hdec : (Ctx.json (Json.bytes "\x7b\x7d")).BodyParser = .ok ⟨"", "", ""⟩ := by rfl
    refine ⟨hdec, ?_, ?_⟩
    · rw [ingest_ok _ _ rdb hdec]
    · rw [ingest_ok _ _ rdb hdec]
      simp [Ctx.json]
  · intro c rdb fault
    cases hb : c.BodyParser with
    | error e => rw [ingest_error c rdb fault e hb]; simp
    | ok req =>
      cases fault with
      | some e => rw [ingest_fault c req rdb e hb]; simp
      | none => rw [ingest_ok c req rdb hb]; simp
  · intro body
    exact Json.Unmarshal_error_iff body

/-- C10 at a body that submits only `content`, on an empty store. -/
theorem ingest_presence_not_validated_witness :
    (Ctx.json (Json.bytes "\x7b\"content\":\"hello\"\x7d")).BodyParser
      = .ok ⟨"", "", "hello"⟩ ∧
    (ingest (Ctx.json (Json.bytes "\x7b\"content\":\"hello\"\x7d")) Redis.empty none).1
      = ⟨202, [("status", "accepted"), ("message", "Document Queued for Processing"),
               ("data", "")]⟩ ∧
    (ingest (Ctx.json (Json.bytes "\x7b\x7d")) Redis.empty none).1
      = ⟨202, [("status", "accepted"), ("message", "Document Queued for Processing"),
               ("data", "")]⟩ ∧
    (ingest (Ctx.json (Json.bytes "\x7b\x7d")) Redis.empty none).2.lists "ingestion_queue"
      = [Json.bytes "\x7b\x7d"] :=
  have h := ingest_presence_not_validated.1 (Json.bytes "\x7b\"content\":\"hello\"\x7d")
    [("content", .string "hello")] Redis.empty (by decide) (by decide)
    (by decide)
  have h2 := ingest_presence_not_validated.2.1 Redis.empty
  ⟨by rfl, by
    obtain ⟨req, _, _, hr, _⟩ := h
    exact hr, h2.2.1, h2.2.2⟩

end Gateway
